import Mathlib

/-!
Shallow embedding of the Redmoon RLE sprite-container decoder
(`core_compat/src/parser/rle.rs`, function `parse_rle`) over byte lists.

Bytes are modelled as `Nat` values (< 256 in any real buffer); the byte
buffer is a `List Nat` and the read cursor an explicit position.  The Rust
`i32` cursor coordinates `x`, `y` are modelled as unbounded `Int` (exact for
every value inside the `i32` range; the claims under study stay far inside
it).  The `as usize` casts in the canvas-address computation are modelled by
`usizeOfI32`, reproducing sign-extension of a negative `i32` to a huge
unsigned index.  Fallible reads return `Option`; the decoder returns
`Except Error`.  A Rust panic (the `.unwrap()` on the opcode-byte read, and
an out-of-bounds canvas write) is the `Error.panicked` outcome of the total
embedding; `Error.fuelExhausted` is the unreachable branch of the opcode
loop's fuel (the loop consumes at least one byte per iteration, so fuel
`data.length + 1` never runs out).
-/

set_option maxRecDepth 40000

namespace Rle

/-- Modelled from the spec: the repository's `error` module is not among the
provided sources.  Section 7 of the spec names the error kinds
`MissingIdentifier` (source constructor `MissingRleIdentifier`),
`InvalidIdentifierEncoding` (the `From<Utf8Error>` conversion applied by the
`?` on `from_utf8`), `Truncated` (an `io::Error` from a cursor read running
past the buffer end) and `UnknownOpcode`/`UnknownOffsetTypeAt` carrying a
byte offset.  `panicked` and `fuelExhausted` are artifacts of the total
embedding, as explained in the file header. -/
inductive Error where
  | missingRleIdentifier : Error
  | invalidIdentifierEncoding : Error
  | truncated : Error
  | unknownOffsetTypeAt : Nat → Error
  | panicked : Error
  | fuelExhausted : Error
deriving DecidableEq, Repr

/-- Modelled from the spec: the `entity::resource::Resource` record, whose
definition is not among the provided sources; fields are those assigned by
`parse_rle` and named in spec section 3 (`file_num` is an `Option<u32>` in
the source, set via `Some(file_number)`; `set_index` stores the offset-table
position). -/
structure Resource where
  file_num : Option Nat
  index : Nat
  offset : Nat
  len : Nat
  offset_x : Nat
  offset_y : Nat
  width : Nat
  height : Nat
  unknown_1 : Nat
  unknown_2 : Nat
  unknown_3 : Nat
  unknown_4 : Nat
  image_raw : List Nat
deriving DecidableEq, Repr

/-- Modelled from the spec: `entity::resource_file::ResourceFile`, the
decoded container — an ordered collection of resources (only the
`resources` field is touched by `parse_rle`). -/
structure ResourceFile where
  resources : List Resource
deriving DecidableEq, Repr

/-- One byte at `pos`; `none` iff the read runs past the buffer end
(`Cursor::read_u8`). -/
def readU8 (data : List Nat) (pos : Nat) : Option Nat :=
  data.get? pos

/-- Little-endian `u32` at `pos` (`Cursor::read_u32::<LittleEndian>`). -/
def readU32 (data : List Nat) (pos : Nat) : Option Nat :=
  match data.get? pos, data.get? (pos + 1), data.get? (pos + 2), data.get? (pos + 3) with
  | some b0, some b1, some b2, some b3 => some (b0 + 256 * b1 + 65536 * b2 + 16777216 * b3)
  | _, _, _, _ => none

/-- Reinterpret a `u32` bit pattern as a signed `i32`
(`Cursor::read_i32::<LittleEndian>` reads the same four bytes). -/
def toI32 (v : Nat) : Int :=
  if v < 2147483648 then (v : Int) else (v : Int) - 4294967296

/-- Rust's `i32 as usize` on a 64-bit host: sign-extend, then reinterpret
as an unsigned 64-bit index. -/
def usizeOfI32 (z : Int) : Nat :=
  (z % 18446744073709551616).toNat

/-- Continuation byte of a UTF-8 multi-byte sequence. -/
def isCont (b : Nat) : Bool :=
  decide (128 ≤ b) && decide (b ≤ 191)

/-- UTF-8 validity of a byte sequence, as checked by `std::str::from_utf8`:
ASCII, two-byte `C2..DF`, three-byte with the `E0`/`ED` surrogate and
overlong exclusions, four-byte with the `F0`/`F4` range exclusions. -/
def utf8Valid : List Nat → Bool
  | [] => true
  | b0 :: r0 =>
    if b0 ≤ 127 then utf8Valid r0
    else if 194 ≤ b0 ∧ b0 ≤ 223 then
      match r0 with
      | b1 :: r1 => isCont b1 && utf8Valid r1
      | [] => false
    else if b0 = 224 then
      match r0 with
      | b1 :: b2 :: r2 => decide (160 ≤ b1) && decide (b1 ≤ 191) && isCont b2 && utf8Valid r2
      | _ => false
    else if (225 ≤ b0 ∧ b0 ≤ 236) ∨ b0 = 238 ∨ b0 = 239 then
      match r0 with
      | b1 :: b2 :: r2 => isCont b1 && isCont b2 && utf8Valid r2
      | _ => false
    else if b0 = 237 then
      match r0 with
      | b1 :: b2 :: r2 => decide (128 ≤ b1) && decide (b1 ≤ 159) && isCont b2 && utf8Valid r2
      | _ => false
    else if b0 = 240 then
      match r0 with
      | b1 :: b2 :: b3 :: r3 =>
          decide (144 ≤ b1) && decide (b1 ≤ 191) && isCont b2 && isCont b3 && utf8Valid r3
      | _ => false
    else if 241 ≤ b0 ∧ b0 ≤ 243 then
      match r0 with
      | b1 :: b2 :: b3 :: r3 => isCont b1 && isCont b2 && isCont b3 && utf8Valid r3
      | _ => false
    else if b0 = 244 then
      match r0 with
      | b1 :: b2 :: b3 :: r3 =>
          decide (128 ≤ b1) && decide (b1 ≤ 143) && isCont b2 && isCont b3 && utf8Valid r3
      | _ => false
    else false

/-- The 14 magic bytes: ASCII `"Resource File"` followed by a zero byte
(the string literal `"Resource File\0"` compared on line 29 of `rle.rs`). -/
def magicBytes : List Nat :=
  [82, 101, 115, 111, 117, 114, 99, 101, 32, 70, 105, 108, 101, 0]

/-- The zero-initialised canvas: the source pushes two `0` bytes per pixel,
`total_px = width * height` times. -/
def zeroBuf (totalPx : Nat) : List Nat :=
  List.replicate (2 * totalPx) 0

/-- The body of the `0x01` (Paint) opcode: `p` pixels remain; per pixel read
a low and a high byte (failed read → `truncated`), write them at canvas
address `usizeOfI32 (y*2*width) + usizeOfI32 (x*2)` (the two separate
`as usize` casts of the source), then `x += 1`.  An out-of-bounds index
panics in the source; here it is `Error.panicked`.  Returns the updated
canvas, the position after the consumed bytes and the final `x`. -/
def paintPixels (data : List Nat) (width : Nat) :
    Nat → Nat → Int → Int → List Nat → Except Error (List Nat × Nat × Int)
  | 0, pos, x, _, img => .ok (img, pos, x)
  | p + 1, pos, x, y, img =>
    match readU8 data pos with
    | none => .error .truncated
    | some lo =>
      match readU8 data (pos + 1) with
      | none => .error .truncated
      | some hi =>
        let idx := usizeOfI32 (y * 2 * (width : Int)) + usizeOfI32 (x * 2)
        if idx + 1 < img.length then
          paintPixels data width p (pos + 2) (x + 1) y ((img.set idx lo).set (idx + 1) hi)
        else .error .panicked

/-- The `'image:` opcode loop of `parse_rle`.  The opcode byte is read with
`.unwrap()` in the source, so a read past the end is `panicked`, not
`truncated`.  `0x00` ends the sprite; `0x01` paints; `0x02` reads a signed
32-bit delta `D` and sets `x += D / 2` (Rust `i32` division truncates
toward zero, i.e. `Int.tdiv`); `0x03` is next-line (`y += 1`, `x` kept); any
other byte fails with `unknownOffsetTypeAt cursor.position()`, the cursor
then standing one past the opcode byte.  Each iteration consumes at least
one byte, so fuel `data.length + 1` suffices from any start position. -/
def runOpcodes (data : List Nat) (width : Nat) :
    Nat → Nat → Int → Int → List Nat → Except Error (List Nat)
  | 0, _, _, _, _ => .error .fuelExhausted
  | fuel + 1, pos, x, y, img =>
    match readU8 data pos with
    | none => .error .panicked
    | some op =>
      if op = 0 then .ok img
      else if op = 1 then
        match readU32 data (pos + 1) with
        | none => .error .truncated
        | some pixels =>
          match paintPixels data width pixels (pos + 5) x y img with
          | .error e => .error e
          | .ok (img', pos', x') => runOpcodes data width fuel pos' x' y img'
      else if op = 2 then
        match readU32 data (pos + 1) with
        | none => .error .truncated
        | some v => runOpcodes data width fuel (pos + 5) (x + Int.tdiv (toI32 v) 2) y img
      else if op = 3 then runOpcodes data width fuel (pos + 1) x (y + 1) img
      else .error (.unknownOffsetTypeAt (pos + 1))

/-- The nine consecutive little-endian `u32` header fields read at the
resource's absolute offset: `len`, `offset_x`, `offset_y`, `width`,
`height`, `unknown_1..4`. -/
structure Header where
  len : Nat
  offset_x : Nat
  offset_y : Nat
  width : Nat
  height : Nat
  unknown_1 : Nat
  unknown_2 : Nat
  unknown_3 : Nat
  unknown_4 : Nat
deriving DecidableEq, Repr

/-- Read the nine-field resource header at absolute position `off`
(any short read fails, i.e. `none` → `truncated` at the use site). -/
def readHeader (data : List Nat) (off : Nat) : Option Header :=
  match readU32 data off, readU32 data (off + 4), readU32 data (off + 8),
      readU32 data (off + 12), readU32 data (off + 16), readU32 data (off + 20),
      readU32 data (off + 24), readU32 data (off + 28), readU32 data (off + 32) with
  | some l, some ox, some oy, some w, some h, some u1, some u2, some u3, some u4 =>
    some ⟨l, ox, oy, w, h, u1, u2, u3, u4⟩
  | _, _, _, _, _, _, _, _, _ => none

/-- `resource_offsets.iter().enumerate()`: pair each offset with its
0-based table position, starting the count at `i`. -/
def enumerateFrom : Nat → List Nat → List (Nat × Nat)
  | _, [] => []
  | i, v :: rest => (i, v) :: enumerateFrom (i + 1) rest

/-- The per-entry loop of `parse_rle` over the enumerated offset table.
A zero offset is skipped (`continue`) with no resource produced.  Otherwise
the header is read at the absolute offset (`Cursor::seek(Start)` itself
cannot fail); if `width < 8000 ∧ height < 8000` the canvas is allocated and
the opcode stream following the header is interpreted, and the finished
resource is appended; otherwise the resource is given the fixed two-byte
placeholder buffer but the loop `continue`s *before* the push, so no
resource reaches the collection and no opcode byte is consumed. -/
def decodeEntries (fileNumber : Nat) (data : List Nat) :
    List (Nat × Nat) → Except Error (List Resource)
  | [] => .ok []
  | (idx, off) :: rest =>
    if off = 0 then decodeEntries fileNumber data rest
    else
      match readHeader data off with
      | none => .error .truncated
      | some h =>
        if h.width < 8000 ∧ h.height < 8000 then
          match runOpcodes data h.width (data.length + 1) (off + 36) 0 0
              (zeroBuf (h.width * h.height)) with
          | .error e => .error e
          | .ok img =>
            match decodeEntries fileNumber data rest with
            | .error e => .error e
            | .ok rs =>
              .ok (⟨some fileNumber, idx, off, h.len, h.offset_x, h.offset_y, h.width,
                h.height, h.unknown_1, h.unknown_2, h.unknown_3, h.unknown_4, img⟩ :: rs)
        else
          decodeEntries fileNumber data rest

/-- Read `count` offset-table entries starting at `pos`. -/
def readOffsets (data : List Nat) (pos : Nat) : Nat → Option (List Nat)
  | 0 => some []
  | n + 1 =>
    match readU32 data pos with
    | none => none
    | some v =>
      match readOffsets data (pos + 4) n with
      | none => none
      | some rest => some (v :: rest)

/-- `parse_rle` after the identifier check: the unknown `u32` at 14, the
resource count at 18, the offset table at 22, then the per-entry loop. -/
def parseAfterId (fileNumber : Nat) (data : List Nat) : Except Error ResourceFile :=
  match readU32 data 14 with
  | none => .error .truncated
  | some _tmp =>
    match readU32 data 18 with
    | none => .error .truncated
    | some totalResources =>
      match readOffsets data 22 totalResources with
      | none => .error .truncated
      | some offs =>
        match decodeEntries fileNumber data (enumerateFrom 0 offs) with
        | .error e => .error e
        | .ok rs => .ok ⟨rs⟩

/-- The entry point `parse_rle(file_number, data)`: a buffer shorter than 14
bytes fails with `missingRleIdentifier`; `from_utf8` on the first 14 bytes
failing is `invalidIdentifierEncoding`; a decoded string other than
`"Resource File\0"` fails with `missingRleIdentifier`; otherwise decoding
proceeds after the identifier. -/
def parse_rle (fileNumber : Nat) (data : List Nat) : Except Error ResourceFile :=
  if 14 ≤ data.length then
    if utf8Valid (data.take 14) then
      if data.take 14 = magicBytes then parseAfterId fileNumber data
      else .error .missingRleIdentifier
    else .error .invalidIdentifierEncoding
  else .error .missingRleIdentifier

/-- Little-endian byte encoding of a 32-bit value, for building concrete
test containers. -/
def u32Bytes (v : Nat) : List Nat :=
  [v % 256, v / 256 % 256, v / 65536 % 256, v / 16777216 % 256]

/-- A container with identifier, unknown field `0`, one offset-table entry
pointing at 26, and there a header with the given `width`/`height` (other
fields zero) followed by the given opcode bytes at position 62. -/
def mkContainer1 (w h : Nat) (ops : List Nat) : List Nat :=
  magicBytes ++ u32Bytes 0 ++ u32Bytes 1 ++ u32Bytes 26 ++
  u32Bytes 0 ++ u32Bytes 0 ++ u32Bytes 0 ++ u32Bytes w ++ u32Bytes h ++
  u32Bytes 0 ++ u32Bytes 0 ++ u32Bytes 0 ++ u32Bytes 0 ++ ops

/-- Width-2, height-1 sprite whose stream paints two pixels then ends. -/
def cPaint : List Nat := mkContainer1 2 1 [1, 2, 0, 0, 0, 170, 187, 204, 221, 0]

/-- Sentinel sprite (`width = 8000`); the buffer ends right after the
header, so any attempt to read an opcode byte would fail. -/
def cSentinel : List Nat := mkContainer1 8000 1 []

/-- Non-sentinel sprite whose buffer ends right where the first opcode byte
would be read. -/
def cTruncOp : List Nat := mkContainer1 1 1 []

/-- Sprite whose first opcode byte (at position 62) is the unrecognised
value `0xFF`. -/
def cUnknown : List Nat := mkContainer1 1 1 [255]

/-- Width-1, height-1 sprite: Next-line moves the cursor to row 1, past the
one-row canvas, and the following Paint computes address 2 in a 2-byte
buffer. -/
def cNextLinePanic : List Nat := mkContainer1 1 1 [3, 1, 1, 0, 0, 0, 9, 9, 0]

/-- Width-1, height-1 sprite: Move-X with byte-delta `-4` drives `x` to
`-2`, and the following Paint's `x*2 as usize` cast yields a huge index. -/
def cMoveNegPanic : List Nat := mkContainer1 1 1 [2, 252, 255, 255, 255, 1, 1, 0, 0, 0, 9, 9, 0]

/-- Offset table `[0, 0, 500]` with a width-1, height-1 sprite at absolute
offset 500 whose stream is just the End opcode. -/
def cZeroTable : List Nat :=
  magicBytes ++ u32Bytes 0 ++ u32Bytes 3 ++ u32Bytes 0 ++ u32Bytes 0 ++ u32Bytes 500 ++
  List.replicate 466 0 ++
  u32Bytes 0 ++ u32Bytes 0 ++ u32Bytes 0 ++ u32Bytes 1 ++ u32Bytes 1 ++
  u32Bytes 0 ++ u32Bytes 0 ++ u32Bytes 0 ++ u32Bytes 0 ++ [0]

/-- C1 counterexample: `cSentinel` holds one non-zero offset-table entry
whose header declares `width = 8000` (read back explicitly in the second
conjunct), yet the successful decode returns an *empty* collection — no
Sprite with a 2-byte pixel buffer appears for that slot, because the
source's sentinel branch `continue`s before the `resources.push`. -/
theorem claim1_counterexample :
    parse_rle 7 cSentinel = Except.ok ⟨[]⟩ ∧
    readHeader cSentinel 26 = some ⟨0, 0, 0, 8000, 1, 0, 0, 0, 0⟩ :=
  ⟨rfl, rfl⟩

/-- C1 (amended): an offset-table entry whose header has `width ≥ 8000` or
`height ≥ 8000` contributes no Sprite to the result collection: the entry is
skipped without consuming any opcode bytes and decoding continues with the
remaining offset-table entries. -/
theorem claim1_amended (fn : Nat) (data : List Nat) (i off : Nat)
    (rest : List (Nat × Nat)) (h : Header) (hh : readHeader data off = some h)
    (hs : 8000 ≤ h.width ∨ 8000 ≤ h.height) (h0 : off ≠ 0) :
    decodeEntries fn data ((i, off) :: rest) = decodeEntries fn data rest := by
  simp only [decodeEntries, if_neg h0, hh]
  rw [if_neg]
  omega

/-- Witness for C1 (amended) at the concrete sentinel container. -/
theorem claim1_amended_witness :
    decodeEntries 7 cSentinel [(0, 26)] = decodeEntries 7 cSentinel [] :=
  claim1_amended 7 cSentinel 0 26 [] ⟨0, 0, 0, 8000, 1, 0, 0, 0, 0⟩ rfl
    (Or.inl (by decide)) (by decide)

/-- C2 counterexample: in `cUnknown` the unrecognised opcode byte `0xFF`
sits at byte position 62, but the error reports offset 63 — the cursor
position *after* the opcode byte was read — not 62 as claimed. -/
theorem claim2_counterexample :
    readU8 cUnknown 62 = some 255 ∧
    parse_rle 0 cUnknown = Except.error (Error.unknownOffsetTypeAt 63) ∧
    parse_rle 0 cUnknown ≠ Except.error (Error.unknownOffsetTypeAt 62) := by
  refine ⟨rfl, rfl, fun hcon => ?_⟩
  have h63 : parse_rle 0 cUnknown = Except.error (Error.unknownOffsetTypeAt 63) := rfl
  rw [h63] at hcon
  simp only [Except.error.injEq, Error.unknownOffsetTypeAt.injEq] at hcon
  omega

/-- C2 (amended): an opcode byte other than `0x00`–`0x03` fails the decode
with `unknownOffsetTypeAt` carrying the cursor position just *after* the
opcode byte, i.e. the opcode's byte position plus one. -/
theorem claim2_amended (data : List Nat) (width fuel pos : Nat) (x y : Int)
    (img : List Nat) (b : Nat) (hb : readU8 data pos = some b)
    (h0 : b ≠ 0) (h1 : b ≠ 1) (h2 : b ≠ 2) (h3 : b ≠ 3) :
    runOpcodes data width (fuel + 1) pos x y img =
      Except.error (Error.unknownOffsetTypeAt (pos + 1)) := by
  simp [runOpcodes, hb, h0, h1, h2, h3]

/-- Witness for C2 (amended): a lone `0xFF` opcode byte at position 0. -/
theorem claim2_amended_witness :
    runOpcodes [255] 1 1 0 0 0 [] =
      Except.error (Error.unknownOffsetTypeAt 1) :=
  claim2_amended [255] 1 0 0 0 0 [] 255 rfl (by decide) (by decide) (by decide)
    (by decide)

/-- C3: in `cTruncOp` the buffer is well-formed through the sprite header
and ends exactly where the first opcode byte would be read; the source's
`cursor.read_u8().unwrap()` then panics (the `panicked` outcome of the
total embedding) instead of returning the truncation error the spec
promises for every past-the-end read. -/
theorem claim3_code_panics :
    parse_rle 0 cTruncOp = Except.error Error.panicked ∧
    Error.panicked ≠ Error.truncated :=
  ⟨rfl, by decide⟩

/-- C6: a `0x02` (Move-X) opcode reads the signed 32-bit little-endian
delta `D` and continues with `x + D / 2`, the division truncating toward
zero (`Int.tdiv`): delta 4 advances `x` by 2, delta 3 by 1, delta -3 by -1;
the byte pattern `FD FF FF FF` decodes to `-3`. -/
theorem claim6_move_x :
    (∀ (data : List Nat) (width fuel pos : Nat) (x y : Int) (img : List Nat)
      (v : Nat), readU8 data pos = some 2 → readU32 data (pos + 1) = some v →
      runOpcodes data width (fuel + 1) pos x y img =
        runOpcodes data width fuel (pos + 5) (x + Int.tdiv (toI32 v) 2) y img) ∧
    Int.tdiv 4 2 = 2 ∧ Int.tdiv 3 2 = 1 ∧ Int.tdiv (-3) 2 = -1 ∧
    toI32 4294967293 = -3 := by
  refine ⟨fun data width fuel pos x y img v hb hv => ?_, by decide, by decide,
    by decide, by decide⟩
  simp [runOpcodes, hb, hv]

/-- Witness for C6 at a concrete Move-X stream with delta 4. -/
theorem claim6_move_x_witness :
    runOpcodes [2, 4, 0, 0, 0] 1 1 0 0 0 [] =
      runOpcodes [2, 4, 0, 0, 0] 1 0 5 (0 + Int.tdiv (toI32 4) 2) 0 [] :=
  claim6_move_x.1 [2, 4, 0, 0, 0] 1 0 0 0 0 [] 4 rfl rfl

/-- C7: a `0x03` (Next-line) opcode increments `y` by one and leaves `x`
unchanged — `x` is not reset across lines. -/
theorem claim7_next_line (data : List Nat) (width fuel pos : Nat) (x y : Int)
    (img : List Nat) (hb : readU8 data pos = some 3) :
    runOpcodes data width (fuel + 1) pos x y img =
      runOpcodes data width fuel (pos + 1) x (y + 1) img := by
  simp [runOpcodes, hb]

/-- Witness for C7 at a concrete Next-line stream. -/
theorem claim7_next_line_witness :
    runOpcodes [3, 0] 1 2 0 5 0 [] = runOpcodes [3, 0] 1 1 1 5 1 [] :=
  claim7_next_line [3, 0] 1 1 0 5 0 [] rfl

/-- A successful paint run never changes the canvas length: each pixel
write is a `List.set`. -/
theorem paintPixels_length (data : List Nat) (width : Nat) :
    ∀ (p pos : Nat) (x y : Int) (img img' : List Nat) (pos' : Nat) (x' : Int),
      paintPixels data width p pos x y img = Except.ok (img', pos', x') →
      img'.length = img.length := by
  intro p
  induction p with
  | zero =>
    intro pos x y img img' pos' x' h
    simp only [paintPixels, Except.ok.injEq, Prod.mk.injEq] at h
    rw [← h.1]
  | succ n ih =>
    intro pos x y img img' pos' x' h
    simp only [paintPixels] at h
    cases hlo : readU8 data pos with
    | none => simp only [hlo] at h; exact Except.noConfusion h
    | some lo =>
      simp only [hlo] at h
      cases hhi : readU8 data (pos + 1) with
      | none => simp only [hhi] at h; exact Except.noConfusion h
      | some hi =>
        simp only [hhi] at h
        by_cases hidx :
            usizeOfI32 (y * 2 * (width : Int)) + usizeOfI32 (x * 2) + 1 < img.length
        · rw [if_pos hidx] at h
          have := ih (pos + 2) (x + 1) y _ img' pos' x' h
          simpa using this
        · rw [if_neg hidx] at h
          simp at h

/-- A successful opcode run never changes the canvas length: painting is
in-place, Move-X and Next-line only move the cursor. -/
theorem runOpcodes_length (data : List Nat) (width : Nat) :
    ∀ (fuel pos : Nat) (x y : Int) (img img' : List Nat),
      runOpcodes data width fuel pos x y img = Except.ok img' →
      img'.length = img.length := by
  intro fuel
  induction fuel with
  | zero => intro pos x y img img' h; simp [runOpcodes] at h
  | succ n ih =>
    intro pos x y img img' h
    simp only [runOpcodes] at h
    cases hop : readU8 data pos with
    | none => simp only [hop] at h; exact Except.noConfusion h
    | some op =>
      simp only [hop] at h
      by_cases h0 : op = 0
      · rw [if_pos h0] at h
        simp only [Except.ok.injEq] at h
        rw [← h]
      · rw [if_neg h0] at h
        by_cases h1 : op = 1
        · rw [if_pos h1] at h
          cases hcnt : readU32 data (pos + 1) with
          | none => simp only [hcnt] at h; exact Except.noConfusion h
          | some pixels =>
            simp only [hcnt] at h
            cases hpp : paintPixels data width pixels (pos + 5) x y img with
            | error e => simp only [hpp] at h; exact Except.noConfusion h
            | ok t =>
              obtain ⟨img1, pos1, x1⟩ := t
              simp only [hpp] at h
              have hl1 :=
                paintPixels_length data width pixels (pos + 5) x y img img1 pos1 x1 hpp
              have hl2 := ih pos1 x1 y img1 img' h
              rw [hl2, hl1]
        · rw [if_neg h1] at h
          by_cases h2 : op = 2
          · rw [if_pos h2] at h
            cases hv : readU32 data (pos + 1) with
            | none => simp only [hv] at h; exact Except.noConfusion h
            | some v =>
              simp only [hv] at h
              exact ih (pos + 5) (x + Int.tdiv (toI32 v) 2) y img img' h
          · rw [if_neg h2] at h
            by_cases h3 : op = 3
            · rw [if_pos h3] at h
              exact ih (pos + 1) x (y + 1) img img' h
            · rw [if_neg h3] at h
              simp at h

/-- Every resource produced by the entry loop comes from an offset-table
pair it was given, with a non-zero offset, and carries a canvas of exactly
`width * height * 2` bytes. -/
theorem decodeEntries_sound (fn : Nat) (data : List Nat) :
    ∀ (pairs : List (Nat × Nat)) (rs : List Resource),
      decodeEntries fn data pairs = Except.ok rs →
      ∀ r ∈ rs, ((r.index, r.offset) ∈ pairs ∧ r.offset ≠ 0) ∧
        r.image_raw.length = r.width * r.height * 2 := by
  intro pairs
  induction pairs with
  | nil =>
    intro rs h r hr
    simp only [decodeEntries, Except.ok.injEq] at h
    subst h
    simp at hr
  | cons p rest ih =>
    obtain ⟨i, off⟩ := p
    intro rs h r hr
    by_cases h0 : off = 0
    · subst h0
      simp only [decodeEntries, if_pos rfl] at h
      have := ih rs h r hr
      exact ⟨⟨List.mem_cons_of_mem _ this.1.1, this.1.2⟩, this.2⟩
    · simp only [decodeEntries] at h
      rw [if_neg h0] at h
      cases hh : readHeader data off with
      | none => simp only [hh] at h; exact Except.noConfusion h
      | some hd =>
        simp only [hh] at h
        by_cases hwh : hd.width < 8000 ∧ hd.height < 8000
        · rw [if_pos hwh] at h
          cases hrun : runOpcodes data hd.width (data.length + 1) (off + 36) 0 0
              (zeroBuf (hd.width * hd.height)) with
          | error e => simp only [hrun] at h; exact Except.noConfusion h
          | ok img1 =>
            simp only [hrun] at h
            cases hrest : decodeEntries fn data rest with
            | error e => simp only [hrest] at h; exact Except.noConfusion h
            | ok rs' =>
              simp only [hrest, Except.ok.injEq] at h
              subst h
              rcases List.mem_cons.mp hr with hr1 | hr2
              · subst hr1
                refine ⟨⟨by simp, h0⟩, ?_⟩
                have hlen := runOpcodes_length data hd.width (data.length + 1) (off + 36)
                  0 0 (zeroBuf (hd.width * hd.height)) img1 hrun
                simp only [zeroBuf, List.length_replicate] at hlen
                simpa using hlen.trans (Nat.mul_comm 2 (hd.width * hd.height))
              · have := ih rs' hrest r hr2
                exact ⟨⟨List.mem_cons_of_mem _ this.1.1, this.1.2⟩, this.2⟩
        · rw [if_neg hwh] at h
          have := ih rs h r hr
          exact ⟨⟨List.mem_cons_of_mem _ this.1.1, this.1.2⟩, this.2⟩

/-- Membership in the enumerated offset table recovers the table position. -/
theorem mem_enumerateFrom :
    ∀ (l : List Nat) (i j v : Nat), (j, v) ∈ enumerateFrom i l →
      i ≤ j ∧ l.get? (j - i) = some v := by
  intro l
  induction l with
  | nil => intro i j v h; simp [enumerateFrom] at h
  | cons w rest ih =>
    intro i j v h
    simp only [enumerateFrom, List.mem_cons, Prod.mk.injEq] at h
    rcases h with ⟨rfl, rfl⟩ | h
    · simp
    · have h1 := ih (i + 1) j v h
      have hij : i ≤ j := by omega
      refine ⟨hij, ?_⟩
      have hsub : j - i = (j - (i + 1)) + 1 := by omega
      rw [hsub, List.get?_cons_succ]
      exact h1.2

/-- A successful `parse_rle` is a successful entry-loop run over the
enumerated offset table read at position 22, whose length was read at 18. -/
theorem parse_rle_ok (fn : Nat) (data : List Nat) (f : ResourceFile)
    (hok : parse_rle fn data = Except.ok f) :
    ∃ total offs, readU32 data 18 = some total ∧
      readOffsets data 22 total = some offs ∧
      decodeEntries fn data (enumerateFrom 0 offs) = Except.ok f.resources := by
  simp only [parse_rle] at hok
  by_cases hl : 14 ≤ data.length
  · rw [if_pos hl] at hok
    by_cases hu : utf8Valid (data.take 14) = true
    · rw [if_pos hu] at hok
      by_cases hm : data.take 14 = magicBytes
      · rw [if_pos hm] at hok
        simp only [parseAfterId] at hok
        cases h14 : readU32 data 14 with
        | none => simp only [h14] at hok; exact Except.noConfusion hok
        | some tmp =>
          simp only [h14] at hok
          cases h18 : readU32 data 18 with
          | none => simp only [h18] at hok; exact Except.noConfusion hok
          | some total =>
            simp only [h18] at hok
            cases hoffs : readOffsets data 22 total with
            | none => simp only [hoffs] at hok; exact Except.noConfusion hok
            | some offs =>
              simp only [hoffs] at hok
              cases hde : decodeEntries fn data (enumerateFrom 0 offs) with
              | error e => simp only [hde] at hok; exact Except.noConfusion hok
              | ok rs =>
                simp only [hde, Except.ok.injEq] at hok
                subst hok
                exact ⟨total, offs, rfl, hoffs, hde⟩
      · rw [if_neg hm] at hok; simp at hok
    · rw [if_neg hu] at hok; simp at hok
  · rw [if_neg hl] at hok; simp at hok

/-- C4: a Paint pixel's two bytes are written exactly at canvas byte
address `y*2*width + x*2` computed from the current cursor (the literal
`as usize` casts, equal to plain `toNat` for every in-range non-negative
address), with no clipping against `width`, and `x` is incremented by 1
after each pixel; the width-2, height-1 sprite stream
`[0x01, 0x02,0,0,0, 0xAA,0xBB, 0xCC,0xDD, 0x00]` yields pixels
`[0xAA, 0xBB, 0xCC, 0xDD]`. -/
theorem claim4_paint :
    (∀ (data : List Nat) (width p pos : Nat) (x y : Int) (img : List Nat)
      (lo hi : Nat), readU8 data pos = some lo → readU8 data (pos + 1) = some hi →
      usizeOfI32 (y * 2 * (width : Int)) + usizeOfI32 (x * 2) + 1 < img.length →
      paintPixels data width (p + 1) pos x y img =
        paintPixels data width p (pos + 2) (x + 1) y
          ((img.set (usizeOfI32 (y * 2 * (width : Int)) + usizeOfI32 (x * 2)) lo).set
            (usizeOfI32 (y * 2 * (width : Int)) + usizeOfI32 (x * 2) + 1) hi)) ∧
    (∀ z : Int, 0 ≤ z → z < 18446744073709551616 → usizeOfI32 z = z.toNat) ∧
    runOpcodes [1, 2, 0, 0, 0, 170, 187, 204, 221, 0] 2 11 0 0 0 (zeroBuf 2) =
      Except.ok [170, 187, 204, 221] := by
  refine ⟨fun data width p pos x y img lo hi h1 h2 h3 => ?_,
    fun z hz1 hz2 => ?_, rfl⟩
  · simp only [paintPixels, h1, h2]
    rw [if_pos h3]
  · simp only [usizeOfI32]
    rw [Int.emod_eq_of_lt hz1 hz2]

/-- Witness for C4 at one concrete in-bounds paint step. -/
theorem claim4_paint_witness :
    paintPixels [170, 187] 2 1 0 0 0 (zeroBuf 2) =
      paintPixels [170, 187] 2 0 2 (0 + 1) 0
        (((zeroBuf 2).set (usizeOfI32 (0 * 2 * (2 : Int)) + usizeOfI32 (0 * 2)) 170).set
          (usizeOfI32 (0 * 2 * (2 : Int)) + usizeOfI32 (0 * 2) + 1) 187) :=
  claim4_paint.1 [170, 187] 2 0 0 0 0 (zeroBuf 2) 170 187 rfl rfl (by decide)

/-- C5: a zero offset-table entry produces no Sprite; every Sprite of a
successful decode sits at a non-zero entry of the offset table read at
position 22, at the table position recorded in its `index` field; the
offset table `[0, 0, 500]` yields exactly one Sprite, with `index = 2`. -/
theorem claim5_offset_table :
    (∀ (fn : Nat) (data : List Nat) (i : Nat) (rest : List (Nat × Nat)),
      decodeEntries fn data ((i, 0) :: rest) = decodeEntries fn data rest) ∧
    (∀ (fn : Nat) (data : List Nat) (f : ResourceFile),
      parse_rle fn data = Except.ok f → ∀ r ∈ f.resources,
        ∃ total offs, readU32 data 18 = some total ∧
          readOffsets data 22 total = some offs ∧
          offs.get? r.index = some r.offset ∧ r.offset ≠ 0) ∧
    parse_rle 9 cZeroTable =
      Except.ok ⟨[⟨some 9, 2, 500, 0, 0, 0, 1, 1, 0, 0, 0, 0, [0, 0]⟩]⟩ := by
  refine ⟨fun fn data i rest => by simp [decodeEntries], ?_, rfl⟩
  intro fn data f hok r hr
  obtain ⟨total, offs, h18, hoffs, hde⟩ := parse_rle_ok fn data f hok
  have hsound := decodeEntries_sound fn data _ _ hde r hr
  have henum := mem_enumerateFrom offs 0 r.index r.offset hsound.1.1
  exact ⟨total, offs, h18, hoffs, by simpa using henum.2, hsound.1.2⟩

/-- Witness for C5: a zero entry is skipped in a concrete entry list. -/
theorem claim5_offset_table_witness :
    decodeEntries 0 [] [(0, 0)] = decodeEntries 0 [] [] :=
  claim5_offset_table.1 0 [] 0 []

/-- C8 counterexample: a buffer of fourteen `0xFF` bytes is 14 bytes long
and differs from the magic sequence, yet the decode fails with
`invalidIdentifierEncoding` (the bytes are not valid UTF-8), not
`missingRleIdentifier` as the claim demands for every mismatch. -/
theorem claim8_counterexample :
    parse_rle 0 (List.replicate 14 255) =
      Except.error Error.invalidIdentifierEncoding ∧
    Error.invalidIdentifierEncoding ≠ Error.missingRleIdentifier :=
  ⟨rfl, by decide⟩

/-- C8 (amended): a buffer shorter than 14 bytes fails with
`missingRleIdentifier`; one whose first 14 bytes are not valid UTF-8 fails
with `invalidIdentifierEncoding`; one whose first 14 bytes are valid UTF-8
but differ from `"Resource File\0"` fails with `missingRleIdentifier`; and
decoding proceeds past the identifier check exactly when the first 14
bytes equal that sequence. -/
theorem claim8_amended (fn : Nat) (data : List Nat) :
    (data.length < 14 → parse_rle fn data = Except.error Error.missingRleIdentifier) ∧
    (14 ≤ data.length → utf8Valid (data.take 14) = false →
      parse_rle fn data = Except.error Error.invalidIdentifierEncoding) ∧
    (14 ≤ data.length → utf8Valid (data.take 14) = true →
      data.take 14 ≠ magicBytes →
      parse_rle fn data = Except.error Error.missingRleIdentifier) ∧
    (data.take 14 = magicBytes → parse_rle fn data = parseAfterId fn data) := by
  refine ⟨fun h => ?_, fun h1 h2 => ?_, fun h1 h2 h3 => ?_, fun hm => ?_⟩
  · simp only [parse_rle]
    rw [if_neg (by omega)]
  · simp only [parse_rle]
    rw [if_pos h1, if_neg (by simp [h2])]
  · simp only [parse_rle]
    rw [if_pos h1, if_pos h2, if_neg h3]
  · have h1 : 14 ≤ data.length := by
      have := congrArg List.length hm
      simp only [List.length_take, magicBytes, List.length_cons] at this
      omega
    have hu : utf8Valid (data.take 14) = true := by rw [hm]; decide
    simp only [parse_rle]
    rw [if_pos h1, if_pos hu, if_pos hm]

/-- Witness for C8 (amended): the empty buffer fails with
`missingRleIdentifier`. -/
theorem claim8_amended_witness :
    parse_rle 0 [] = Except.error Error.missingRleIdentifier :=
  (claim8_amended 0 []).1 (by decide)

/-- C9: the opcode interpreter never changes the canvas length, and every
Sprite of a successful decode (all of which come from the normal,
non-sentinel path, sentinels being skipped) has a pixel buffer of exactly
`width * height * 2` bytes. -/
theorem claim9_pixels_length :
    (∀ (data : List Nat) (width fuel pos : Nat) (x y : Int) (img img' : List Nat),
      runOpcodes data width fuel pos x y img = Except.ok img' →
      img'.length = img.length) ∧
    (∀ (fn : Nat) (data : List Nat) (f : ResourceFile),
      parse_rle fn data = Except.ok f → ∀ r ∈ f.resources,
        r.image_raw.length = r.width * r.height * 2) := by
  refine ⟨fun data width fuel pos x y img img' h =>
    runOpcodes_length data width fuel pos x y img img' h, ?_⟩
  intro fn data f hok r hr
  obtain ⟨total, offs, h18, hoffs, hde⟩ := parse_rle_ok fn data f hok
  exact (decodeEntries_sound fn data _ _ hde r hr).2

/-- Witness for C9 at the concrete width-2, height-1 container. -/
theorem claim9_pixels_length_witness :
    (⟨some 3, 0, 26, 0, 0, 0, 2, 1, 0, 0, 0, 0, [170, 187, 204, 221]⟩ :
        Resource).image_raw.length =
      (⟨some 3, 0, 26, 0, 0, 0, 2, 1, 0, 0, 0, 0, [170, 187, 204, 221]⟩ :
        Resource).width *
      (⟨some 3, 0, 26, 0, 0, 0, 2, 1, 0, 0, 0, 0, [170, 187, 204, 221]⟩ :
        Resource).height * 2 :=
  claim9_pixels_length.2 3 cPaint
    ⟨[⟨some 3, 0, 26, 0, 0, 0, 2, 1, 0, 0, 0, 0, [170, 187, 204, 221]⟩]⟩ rfl
    ⟨some 3, 0, 26, 0, 0, 0, 2, 1, 0, 0, 0, 0, [170, 187, 204, 221]⟩ (by simp)

/-- C10: two containers that are well-formed (valid identifier, non-sentinel
header, opcode stream entirely inside the buffer) yet drive the paint
cursor outside the allocated canvas — `cNextLinePanic` via a Next-line past
the last row, `cMoveNegPanic` via a Move-X that makes `x` negative so the
`as usize` cast produces a huge index.  Both reach the out-of-bounds canvas
write, which in the source is an unchecked indexing panic and in this total
embedding is the `panicked` branch; no ordinary error value is returned. -/
theorem claim10_out_of_range_write_panics :
    parse_rle 0 cNextLinePanic = Except.error Error.panicked ∧
    parse_rle 0 cMoveNegPanic = Except.error Error.panicked ∧
    Error.panicked ≠ Error.truncated ∧
    Error.panicked ≠ Error.missingRleIdentifier ∧
    (∀ n, Error.panicked ≠ Error.unknownOffsetTypeAt n) :=
  ⟨rfl, rfl, by decide, by decide, fun n h => Error.noConfusion h⟩

end Rle
